import Mathlib

/-!
Verification of the interactive-review core
(`plugins/interactive-review/mcp-server/web_ui.py`).

The Python side contributes `Block` and `parse_markdown` (line-mode
segmentation).  The embedded JavaScript contributes the per-session review
state (`comments`, `commentIdCounter`, the line-selection fields) and the
operations `addCommentForSelection`, `confirmInlineComment`,
`updateCommentText`, `deleteComment`, `clearAllComments`,
`updateCommentCount`, `submitReview` and `cancelReview`.  Both are embedded
shallowly below; strings are modelled as Lean `String` / `List Char`,
JavaScript numbers that only ever hold line indices as `Nat`, and nullable
fields as `Option`.
-/

namespace InteractiveReview

/-- Python `content.split('\n')`, seen one character at a time: returns the
first line and the remaining lines. -/
def splitLinesAux : List Char → List Char × List (List Char)
  | [] => ([], [])
  | c :: cs =>
    let r := splitLinesAux cs
    if c = '\n' then ([], r.1 :: r.2) else (c :: r.1, r.2)

/-- Python `content.split('\n')`: the list of physical lines of `content`
(on the empty input it is `[[]]`, one empty line, as in Python). -/
def splitLines (s : List Char) : List (List Char) :=
  (splitLinesAux s).1 :: (splitLinesAux s).2

/-- Python `'\n'.join(lines)`: the inverse direction of `splitLines`. -/
def joinLines : List (List Char) → List Char
  | [] => []
  | [l] => l
  | l :: l2 :: ls => l ++ '\n' :: joinLines (l2 :: ls)

/-- The `Block` dataclass of `web_ui.py`: one reviewable unit. -/
structure Block where
  id : String
  type : String
  text : List Char
  level : Nat
  raw : List Char
deriving DecidableEq

/-- `parse_markdown` of `web_ui.py`: one `line` Block per physical line,
`id = "line-{i}"`, `text = raw = ` the line, `level = 0`. -/
def parse_markdown (content : List Char) : List Block :=
  (splitLines content).enum.map fun p =>
    { id := "line-" ++ toString p.1, type := "line", text := p.2,
      level := 0, raw := p.2 }

theorem joinLines_splitLines (s : List Char) : joinLines (splitLines s) = s := by
  induction s with
  | nil => rfl
  | cons c cs ih =>
    unfold splitLines splitLinesAux
    by_cases hc : c = '\n'
    · subst hc
      simp only [if_pos rfl]
      show joinLines ([] :: (splitLinesAux cs).1 :: (splitLinesAux cs).2) = '\n' :: cs
      unfold joinLines
      simpa using ih
    · simp only [if_neg hc]
      show joinLines ((c :: (splitLinesAux cs).1) :: (splitLinesAux cs).2) = c :: cs
      rcases h2 : (splitLinesAux cs).2 with _ | ⟨l2, ls⟩
      · have : joinLines (splitLines cs) = cs := ih
        unfold splitLines at this
        rw [h2] at this
        simpa [joinLines] using this
      · have : joinLines (splitLines cs) = cs := ih
        unfold splitLines at this
        rw [h2] at this
        simp only [joinLines] at this ⊢
        simpa using this

theorem parse_markdown_raw (content : List Char) :
    (parse_markdown content).map (fun b => b.raw) = splitLines content := by
  unfold parse_markdown
  rw [List.map_map]
  exact List.enum_map_snd _

theorem parse_markdown_length (content : List Char) :
    (parse_markdown content).length = (splitLines content).length := by
  unfold parse_markdown
  rw [List.length_map, List.enum_length]

/-- C1: line-mode segmentation yields exactly one Unit per physical line of
the input (the empty input having one empty line, as in Python), the i-th
Unit's `raw` is the i-th line, and joining all Units' `raw` fields with
newline separators reproduces the original input exactly. -/
theorem line_mode_roundtrip (content : List Char) :
    (parse_markdown content).length = (splitLines content).length ∧
    (parse_markdown content).map (fun b => b.raw) = splitLines content ∧
    joinLines ((parse_markdown content).map (fun b => b.raw)) = content := by
  refine ⟨parse_markdown_length content, parse_markdown_raw content, ?_⟩
  rw [parse_markdown_raw]
  exact joinLines_splitLines content

/-- C5: the i-th Unit of line-mode segmentation has kind `line`, display
text and raw source both equal to the i-th physical line, level 0, and id
`"line-" ++ toString i` (the line's zero-based index). -/
theorem line_unit_fields (content : List Char) (i : Nat)
    (h : i < (splitLines content).length) :
    (parse_markdown content).get? i =
      some { id := "line-" ++ toString i, type := "line",
             text := (splitLines content).get ⟨i, h⟩, level := 0,
             raw := (splitLines content).get ⟨i, h⟩ } := by
  unfold parse_markdown
  rw [List.get?_map, List.get?_enum, List.get?_eq_get h]
  rfl

theorem line_unit_fields_witness :
    (0 < (splitLines ("ab\ncd".data)).length) ∧
    (parse_markdown ("ab\ncd".data)).get? 1 =
      some { id := "line-1", type := "line", text := "cd".data, level := 0,
             raw := "cd".data } := by
  refine ⟨by decide, ?_⟩
  have h : 1 < (splitLines ("ab\ncd".data)).length := by decide
  have := line_unit_fields ("ab\ncd".data) 1 h
  simpa using this

/-! ## The embedded JavaScript session state

`web_ui.py` emits a page whose script holds the review state in globals
(`comments`, `commentIdCounter`, `selectionStart`, `selectionEnd`,
`isSelecting`, `selectedText`) plus the immutable `lines` array; the
functions below are its event handlers, embedded as state transformers. -/

/-- One element of the `comments` array:
`{ id, startLine, endLine, text, linePreview, type }`, with text-selection
comments additionally carrying `selectedText`. -/
structure Comment where
  id : String
  type : String
  startLine : Option Nat
  endLine : Option Nat
  text : String
  linePreview : String
  selectedText : Option String
deriving DecidableEq

/-- The mutable script globals of one review session, plus the immutable
`lines` array (the texts of the parsed lines). -/
structure SessionState where
  lines : List String
  comments : List Comment
  commentIdCounter : Nat
  selectionStart : Option Nat
  selectionEnd : Option Nat
  isSelecting : Bool
  selectedText : String
  windowClosed : Bool
deriving DecidableEq

/-- The state of a freshly loaded page: empty comment list, counter 0,
no selection. -/
def initState (lines : List String) : SessionState :=
  { lines := lines, comments := [], commentIdCounter := 0,
    selectionStart := none, selectionEnd := none, isSelecting := false,
    selectedText := "", windowClosed := false }

/-- The id string `` `comment-${n}` `` interpolated by the script. -/
def mkCommentId (n : Nat) : String :=
  "comment-" ++ toString n

/-- JavaScript `s.trim()`: leading and trailing whitespace removed. -/
def jsTrim (s : String) : String :=
  String.mk
    ((((s.data.dropWhile Char.isWhitespace).reverse).dropWhile
        Char.isWhitespace).reverse)

/-- JavaScript `s.substring(0, n)`: the first `n` characters of `s` (all of
`s` when it is shorter). -/
def jsSubstrTo (s : String) (n : Nat) : String :=
  String.mk (s.data.take n)

/-- JavaScript `s.length`. -/
def jsLen (s : String) : Nat :=
  s.data.length

/-- JavaScript `v || d` on a nullable number: `null` and `0` are falsy. -/
def jsFalsyOr (v : Option Nat) (d : Nat) : Nat :=
  match v with
  | none => d
  | some n => if n = 0 then d else n

/-- `startLineSelection(lineNum)`. -/
def startLineSelection (lineNum : Nat) (s : SessionState) : SessionState :=
  { s with isSelecting := true, selectionStart := some lineNum,
           selectionEnd := some lineNum }

/-- `extendLineSelection(lineNum)`. -/
def extendLineSelection (lineNum : Nat) (s : SessionState) : SessionState :=
  if s.isSelecting ∧ s.selectionStart ≠ none then
    { s with selectionEnd := some lineNum }
  else s

/-- The document-level `mouseup` handler ending a line selection. -/
def docMouseup (s : SessionState) : SessionState :=
  if s.isSelecting ∧ s.selectionStart ≠ none then
    { s with isSelecting := false,
             selectionEnd := if s.selectionEnd = none then s.selectionStart
                             else s.selectionEnd }
  else s

/-- `clearSelection()`. -/
def clearSelection (s : SessionState) : SessionState :=
  { s with selectionStart := none, selectionEnd := none }

/-- The preview string built by `addCommentForSelection`:
`join('\n')` of the selected lines, `substring(0, 100)`, with `'...'`
appended when the joined text is longer than 100 characters. -/
def selectionPreview (lines : List String) (start stop : Nat) : String :=
  let joined := String.intercalate "\n" ((lines.drop start).take (stop - start + 1))
  jsSubstrTo joined 100 ++ (if 100 < jsLen joined then "..." else "")

/-- `addCommentForSelection()`: returns early when no selection is active;
otherwise normalises the selection with `Math.min`/`Math.max` (note the
JavaScript `selectionEnd || selectionStart` with `0` falsy), pushes one new
line comment with the next counter id, and clears the selection.  It
performs no bounds validation of the resulting range. -/
def addCommentForSelection (s : SessionState) : SessionState :=
  match s.selectionStart with
  | none => s
  | some selStart =>
    let e := jsFalsyOr s.selectionEnd selStart
    let start := min selStart e
    let stop := max selStart e
    let c : Comment :=
      { id := mkCommentId s.commentIdCounter, type := "line",
        startLine := some start, endLine := some stop, text := "",
        linePreview := selectionPreview s.lines start stop,
        selectedText := none }
    { s with comments := s.comments ++ [c],
             commentIdCounter := s.commentIdCounter + 1,
             selectionStart := none, selectionEnd := none }

/-- `quickAddComment(lineNum)`: sets a one-line selection and delegates to
`addCommentForSelection`. -/
def quickAddComment (lineNum : Nat) (s : SessionState) : SessionState :=
  addCommentForSelection
    { s with selectionStart := some lineNum, selectionEnd := some lineNum }

/-- The preview-pane `mouseup` handler: stores the trimmed selection string
in `selectedText` when it is non-empty. -/
def setSelectedText (raw : String) (s : SessionState) : SessionState :=
  let t := jsTrim raw
  if t ≠ "" then { s with selectedText := t } else s

/-- `confirmInlineComment()`: no-op when no text is selected; otherwise
pushes one new text comment carrying the selected text verbatim in
`selectedText` and a preview truncated to 100 characters, then clears the
selection state. -/
def confirmInlineComment (inputValue : String) (s : SessionState) : SessionState :=
  if s.selectedText = "" then s
  else
    let st := s.selectedText
    let preview := if 100 < jsLen st then jsSubstrTo st 100 ++ "..." else st
    let c : Comment :=
      { id := mkCommentId s.commentIdCounter, type := "text",
        startLine := none, endLine := none, text := jsTrim inputValue,
        linePreview := preview, selectedText := some st }
    { s with comments := s.comments ++ [c],
             commentIdCounter := s.commentIdCounter + 1,
             selectedText := "" }

/-- The `Escape` branch of the inline-popup keydown handler: discards the
pending selection. -/
def popupEscape (s : SessionState) : SessionState :=
  { s with selectedText := "" }

/-- `comments.find(...)` followed by mutation: update the first comment
with the given id. -/
def setTextOfFirst (cid t : String) : List Comment → List Comment
  | [] => []
  | c :: cs =>
    if c.id = cid then { c with text := t } :: cs
    else c :: setTextOfFirst cid t cs

/-- `updateCommentText(commentId, text)`. -/
def updateCommentText (cid t : String) (s : SessionState) : SessionState :=
  { s with comments := setTextOfFirst cid t s.comments }

/-- `deleteComment(commentId)`: `comments.filter(c => c.id !== commentId)`. -/
def deleteComment (cid : String) (s : SessionState) : SessionState :=
  { s with comments := s.comments.filter (fun c => c.id ≠ cid) }

/-- `clearAllComments()`: empties the list only when it is non-empty and
the user answers the `confirm` dialog positively. -/
def clearAllComments (confirmResp : Bool) (s : SessionState) : SessionState :=
  if s.comments.length > 0 ∧ confirmResp then { s with comments := [] } else s

/-- `updateCommentCount()` displays `comments.length`. -/
def commentCount (s : SessionState) : Nat :=
  s.comments.length

/-! ## Submission protocol -/

/-- One element of the submitted `items` array. -/
structure PayloadItem where
  id : String
  startLine : Option Nat
  endLine : Option Nat
  text : String
  linePreview : String
  checked : Bool
  comment : String
deriving DecidableEq

/-- The body POSTed to `/submit`. -/
structure Payload where
  status : String
  timestamp : Option String
  items : List PayloadItem
deriving DecidableEq

/-- The per-comment item built inside `submitReview`. -/
def mkItem (c : Comment) : PayloadItem :=
  { id := c.id, startLine := c.startLine, endLine := c.endLine,
    text := c.text, linePreview := c.linePreview, checked := true,
    comment := c.text }

/-- The `result` object serialized by `submitReview`. -/
def submitPayload (timestamp : String) (s : SessionState) : Payload :=
  { status := "submitted", timestamp := some timestamp,
    items := s.comments.map mkItem }

/-- `submitReview()`: unconditionally serializes the current comments and
issues the POST; on fetch success the window is closed, on failure an alert
is shown and every piece of session state is left as it was. -/
def submitReview (timestamp : String) (fetchOk : Bool) (s : SessionState) :
    SessionState × Payload :=
  (if fetchOk then { s with windowClosed := true } else s,
   submitPayload timestamp s)

/-- `cancelReview()`: POSTs `{status:'cancelled', items:[]}` and closes the
window whether or not the fetch succeeds. -/
def cancelReview (s : SessionState) : SessionState × Payload :=
  ({ s with windowClosed := true },
   { status := "cancelled", timestamp := none, items := [] })

/-! ## Range-comment behaviour (claim C3) -/

/-- A ten-line session in which the user dragged a line selection from
line 5 up to line 2 (an inverted range). -/
def invertedSelState : SessionState :=
  { initState ["a0", "a1", "a2", "a3", "a4", "a5", "a6", "a7", "a8", "a9"] with
      selectionStart := some 5, selectionEnd := some 2 }

set_option maxRecDepth 10000 in
/-- C3 counterexample: an inverted selection (start 5, end 2) is not
rejected — `addCommentForSelection` normalises it with min/max and creates
a comment, mutating the store. -/
theorem inverted_range_not_rejected :
    (addCommentForSelection invertedSelState).comments ≠
      invertedSelState.comments ∧
    (addCommentForSelection invertedSelState).comments =
      [{ id := "comment-0", type := "line", startLine := some 2,
         endLine := some 5, text := "", linePreview := "a2\na3\na4\na5",
         selectedText := none }] := by
  constructor
  · decide
  · decide

/-- C3 amended: `addCommentForSelection` performs no range validation at
all.  With no active selection it is a no-op; with an active selection it
normalises the endpoints with min/max (inverted selections included) and
always appends exactly one new comment with the fresh counter id,
incrementing the counter. -/
theorem addCommentForSelection_behavior (s : SessionState) :
    (s.selectionStart = none → addCommentForSelection s = s) ∧
    (∀ a, s.selectionStart = some a →
      (addCommentForSelection s).comments =
        s.comments ++
          [{ id := mkCommentId s.commentIdCounter, type := "line",
             startLine := some (min a (jsFalsyOr s.selectionEnd a)),
             endLine := some (max a (jsFalsyOr s.selectionEnd a)),
             text := "",
             linePreview := selectionPreview s.lines
               (min a (jsFalsyOr s.selectionEnd a))
               (max a (jsFalsyOr s.selectionEnd a)),
             selectedText := none }] ∧
      (addCommentForSelection s).commentIdCounter = s.commentIdCounter + 1) := by
  constructor
  · intro h
    unfold addCommentForSelection
    rw [h]
  · intro a h
    unfold addCommentForSelection
    rw [h]
    exact ⟨rfl, rfl⟩

theorem addCommentForSelection_behavior_witness :
    (addCommentForSelection invertedSelState).comments =
      invertedSelState.comments ++
        [{ id := mkCommentId invertedSelState.commentIdCounter, type := "line",
           startLine := some (min 5 (jsFalsyOr invertedSelState.selectionEnd 5)),
           endLine := some (max 5 (jsFalsyOr invertedSelState.selectionEnd 5)),
           text := "",
           linePreview := selectionPreview invertedSelState.lines
             (min 5 (jsFalsyOr invertedSelState.selectionEnd 5))
             (max 5 (jsFalsyOr invertedSelState.selectionEnd 5)),
           selectedText := none }] ∧
    (addCommentForSelection invertedSelState).commentIdCounter =
      invertedSelState.commentIdCounter + 1 :=
  (addCommentForSelection_behavior invertedSelState).2 5 rfl

/-! ## Submission payload shape (claim C4) -/

/-- C4: submitting emits `{status:"submitted", timestamp, items}` where the
items are exactly the comments, each mapped to
`{id, startLine, endLine, text, linePreview, checked:true, comment:text}`;
cancelling emits `{status:"cancelled", items:[]}` no matter how many
comments exist. -/
theorem submission_payload_shapes (timestamp : String) (ok : Bool)
    (s : SessionState) :
    (submitReview timestamp ok s).2 =
      { status := "submitted", timestamp := some timestamp,
        items := s.comments.map (fun c =>
          { id := c.id, startLine := c.startLine, endLine := c.endLine,
            text := c.text, linePreview := c.linePreview, checked := true,
            comment := c.text }) } ∧
    ((submitReview timestamp ok s).2.items.all
      (fun it => it.checked && (it.comment == it.text))) = true ∧
    (cancelReview s).2 =
      { status := "cancelled", timestamp := none, items := [] } := by
  refine ⟨rfl, ?_, rfl⟩
  simp [submitReview, submitPayload, mkItem, List.all_eq_true]

/-! ## Clear-all and the comment count (claim C8) -/

/-- C8: a confirmed `clearAllComments` empties the store and the displayed
count drops to 0; the displayed count always equals the number of comments
in the store. -/
theorem clearAll_empties_store (s : SessionState) :
    (clearAllComments true s).comments = [] ∧
    commentCount (clearAllComments true s) = 0 ∧
    commentCount s = s.comments.length := by
  rcases h : s.comments with _ | ⟨c, cs⟩ <;>
    simp [clearAllComments, commentCount, h]

/-! ## Deleting annotations (claim C9) -/

/-- C9: `deleteComment` is idempotent, leaves no comment with the deleted
id behind, and deleting an id that is absent from the store is a no-op. -/
theorem deleteComment_spec (s : SessionState) (cid : String) :
    deleteComment cid (deleteComment cid s) = deleteComment cid s ∧
    cid ∉ (deleteComment cid s).comments.map (fun c => c.id) ∧
    (cid ∉ s.comments.map (fun c => c.id) → deleteComment cid s = s) := by
  refine ⟨?_, ?_, ?_⟩
  · simp [deleteComment, List.filter_filter]
  · simp only [deleteComment, List.mem_map, List.mem_filter]
    rintro ⟨c, ⟨_, hkeep⟩, hid⟩
    simp only [ne_eq, decide_eq_true_eq] at hkeep
    exact hkeep hid
  · intro h
    have heq : s.comments.filter (fun c => c.id ≠ cid) = s.comments := by
      apply List.filter_eq_self.mpr
      intro c hc
      simp only [ne_eq, decide_eq_true_eq]
      intro hcid
      exact h (hcid ▸ List.mem_map_of_mem (fun c => c.id) hc)
    unfold deleteComment
    rw [heq]

/-- A session holding one comment, used to witness C9. -/
def oneCommentState : SessionState :=
  { initState ["x"] with
      comments := [{ id := "comment-0", type := "line", startLine := some 0,
                     endLine := some 0, text := "hi", linePreview := "x",
                     selectedText := none }],
      commentIdCounter := 1 }

theorem deleteComment_spec_witness :
    ("comment-7" ∉ oneCommentState.comments.map (fun c => c.id)) ∧
    deleteComment "comment-7" oneCommentState = oneCommentState := by
  refine ⟨by decide, ?_⟩
  exact (deleteComment_spec oneCommentState "comment-7").2.2 (by decide)

/-! ## No terminal session state (claim C2) -/

/-- A session in which one line comment was added via `quickAddComment`. -/
def c2Before : SessionState :=
  quickAddComment 0 (initState ["hello", "world"])

/-- The session state after a submit attempt whose fetch failed. -/
def c2AfterFail : SessionState :=
  (submitReview "2024-01-01T00:00:00Z" false c2Before).1

/-- C2 counterexample: after a failed submit the session is not closed —
the state is bit-for-bit unchanged, a further mutation is accepted (a new
comment lands in the store), and a repeated submit attempt issues another
full `submitted` payload instead of an invalid-state error. -/
theorem no_terminal_state_after_submit :
    c2AfterFail = c2Before ∧
    c2AfterFail.windowClosed = false ∧
    (quickAddComment 1 c2AfterFail).comments.length =
      c2Before.comments.length + 1 ∧
    (submitReview "t1" false c2AfterFail).2.status = "submitted" ∧
    (submitReview "t1" false c2AfterFail).2.items.length = 1 := by
  refine ⟨rfl, rfl, by decide, rfl, by decide⟩

/-- C2 amended: the script keeps no terminal-state flag.  Every submit
attempt — first or repeated — serializes the current comments and issues
the outbound call; a failed fetch leaves the whole session state unchanged
(still editable, window open), and only a successful fetch closes the
window; mutations after a failed submit behave exactly as before it. -/
theorem submit_keeps_session_open (timestamp : String) (ok : Bool)
    (s : SessionState) (n : Nat) :
    (submitReview timestamp false s).1 = s ∧
    (submitReview timestamp ok s).2 = submitPayload timestamp s ∧
    (submitReview timestamp true s).1 = { s with windowClosed := true } ∧
    quickAddComment n ((submitReview timestamp false s).1) =
      quickAddComment n s := by
  exact ⟨rfl, rfl, rfl, rfl⟩

/-! ## Text-selection descriptors (claim C7) -/

/-- A 101-character selection descriptor. -/
def longSelection : String :=
  String.mk (List.replicate 101 'a')

/-- A session in which the user has selected `longSelection` in the
preview pane. -/
def longSelState : SessionState :=
  { initState ["x"] with selectedText := longSelection }

/-- The session after confirming an inline comment on that selection. -/
def longSelAfter : SessionState :=
  confirmInlineComment "note" longSelState

set_option maxRecDepth 100000 in
/-- C7 counterexample: the descriptor is stored verbatim on the
Annotation, but the submitted payload does not echo it — the single item
carries only a preview truncated to 100 characters plus `"..."`, and none
of its fields equals the descriptor. -/
theorem selection_descriptor_not_echoed :
    (longSelAfter.comments.map (fun c => c.selectedText)) =
      [some longSelection] ∧
    (submitReview "t" true longSelAfter).2.items =
      [{ id := "comment-0", startLine := none, endLine := none,
         text := "note",
         linePreview := String.mk (List.replicate 100 'a') ++ "...",
         checked := true, comment := "note" }] ∧
    String.mk (List.replicate 100 'a') ++ "..." ≠ longSelection ∧
    ("note" : String) ≠ longSelection ∧
    ("comment-0" : String) ≠ longSelection := by
  refine ⟨by decide, by decide, by decide, by decide, by decide⟩

/-- C7 amended: `confirmInlineComment` stores the selection descriptor
verbatim in the Annotation's `selectedText`, but the payload item built
for it by `submitReview` carries no `selectedText` field — only the
truncated `linePreview` (the descriptor cut to 100 characters, `"..."`
appended when longer). -/
theorem selection_comment_stored_not_echoed (s : SessionState)
    (input timestamp : String) (ok : Bool) (h : s.selectedText ≠ "") :
    ((confirmInlineComment input s).comments.map (fun c => c.selectedText)) =
      s.comments.map (fun c => c.selectedText) ++ [some s.selectedText] ∧
    (submitReview timestamp ok (confirmInlineComment input s)).2.items =
      s.comments.map mkItem ++
        [{ id := mkCommentId s.commentIdCounter, startLine := none,
           endLine := none, text := jsTrim input,
           linePreview := if 100 < jsLen s.selectedText
                          then jsSubstrTo s.selectedText 100 ++ "..."
                          else s.selectedText,
           checked := true, comment := jsTrim input }] := by
  unfold confirmInlineComment
  rw [if_neg h]
  constructor
  · simp
  · simp [submitReview, submitPayload, mkItem]

theorem selection_comment_stored_not_echoed_witness :
    (longSelState.selectedText ≠ "") ∧
    ((confirmInlineComment "note" longSelState).comments.map
      (fun c => c.selectedText)) =
      longSelState.comments.map (fun c => c.selectedText) ++
        [some longSelState.selectedText] := by
  refine ⟨by decide, ?_⟩
  exact (selection_comment_stored_not_echoed longSelState "note" "t" true
    (by decide)).1

/-! ## Uniqueness of comment ids (claim C10)

The ids are `` `comment-${commentIdCounter++}` ``; to show two such ids
with different counter values differ we first prove that the decimal
rendering `toString : Nat → String` used by the interpolation is
injective. -/

/-- The decimal digit characters of `n`, most significant first: a
structurally transparent form of what `Nat.toDigitsCore` computes. -/
def decChars (n : Nat) : List Char :=
  if _h : n < 10 then [Nat.digitChar n]
  else decChars (n / 10) ++ [Nat.digitChar (n % 10)]
decreasing_by exact Nat.div_lt_self (by omega) (by omega)

theorem toDigitsCore_eq_decChars :
    ∀ (fuel n : Nat) (ds : List Char), n < fuel →
      Nat.toDigitsCore 10 fuel n ds = decChars n ++ ds
  | 0, n, _, h => absurd h (Nat.not_lt_zero n)
  | fuel + 1, n, ds, h => by
    unfold Nat.toDigitsCore
    by_cases h10 : n / 10 = 0
    · have hn : n < 10 := by omega
      rw [if_pos h10, decChars, dif_pos hn, Nat.mod_eq_of_lt hn]
      rfl
    · have hn : ¬ n < 10 := by omega
      have hfuel : n / 10 < fuel := by omega
      have hrhs : decChars n = decChars (n / 10) ++ [Nat.digitChar (n % 10)] := by
        rw [decChars]
        exact dif_neg hn
      rw [if_neg h10, toDigitsCore_eq_decChars fuel (n / 10) _ hfuel, hrhs,
        List.append_assoc]
      rfl

theorem toDigits_eq_decChars (n : Nat) : Nat.toDigits 10 n = decChars n := by
  unfold Nat.toDigits
  rw [toDigitsCore_eq_decChars (n + 1) n [] (Nat.lt_succ_self n),
    List.append_nil]

/-- The numeric value of a decimal digit character. -/
def digitVal (c : Char) : Nat :=
  c.toNat - 48

theorem digitVal_digitChar (n : Nat) (h : n < 10) :
    digitVal (Nat.digitChar n) = n := by
  interval_cases n <;> rfl

theorem foldl_decChars (n : Nat) : ∀ a : Nat,
    (decChars n).foldl (fun acc c => acc * 10 + digitVal c) a =
      a * 10 ^ (decChars n).length + n := by
  induction n using Nat.strong_induction_on with
  | _ n ih =>
    intro a
    by_cases h : n < 10
    · rw [decChars, dif_pos h]
      simp [digitVal_digitChar n h]
    · rw [decChars, dif_neg h]
      rw [List.foldl_append,
        ih (n / 10) (Nat.div_lt_self (by omega) (by omega)) a]
      simp only [List.foldl_cons, List.foldl_nil, List.length_append,
        List.length_singleton]
      rw [digitVal_digitChar (n % 10) (Nat.mod_lt n (by omega)), pow_succ,
        ← Nat.mul_assoc]
      generalize a * 10 ^ (decChars (n / 10)).length = q
      omega

theorem decChars_injective (m n : Nat) (h : decChars m = decChars n) :
    m = n := by
  have hm := foldl_decChars m 0
  have hn := foldl_decChars n 0
  rw [h] at hm
  omega

theorem natToString_injective (m n : Nat)
    (h : (toString m : String) = toString n) : m = n := by
  have hrepr : Nat.repr m = Nat.repr n := h
  unfold Nat.repr at hrepr
  rw [toDigits_eq_decChars, toDigits_eq_decChars] at hrepr
  have hdata := congrArg String.data hrepr
  simp only [List.asString] at hdata
  exact decChars_injective m n hdata

theorem mkCommentId_injective (m n : Nat)
    (h : mkCommentId m = mkCommentId n) : m = n := by
  unfold mkCommentId at h
  have hdata := congrArg String.data h
  simp only [String.data_append] at hdata
  have := List.append_cancel_left hdata
  exact natToString_injective m n (by
    apply congrArg String.mk at this
    simpa using this)

/-- Every user-triggerable event handler of the page, as one action type. -/
inductive Action where
  | startSel (lineNum : Nat)
  | extendSel (lineNum : Nat)
  | mouseup
  | clearSel
  | quickAdd (lineNum : Nat)
  | addForSel
  | setSel (raw : String)
  | confirmInline (input : String)
  | escapePopup
  | updateText (cid t : String)
  | delete (cid : String)
  | clearAll (confirmResp : Bool)
  | submit (timestamp : String) (fetchOk : Bool)
  | cancel
deriving DecidableEq

/-- One step of the session: dispatch an action to its handler. -/
def step : Action → SessionState → SessionState
  | .startSel n, s => startLineSelection n s
  | .extendSel n, s => extendLineSelection n s
  | .mouseup, s => docMouseup s
  | .clearSel, s => clearSelection s
  | .quickAdd n, s => quickAddComment n s
  | .addForSel, s => addCommentForSelection s
  | .setSel raw, s => setSelectedText raw s
  | .confirmInline inp, s => confirmInlineComment inp s
  | .escapePopup, s => popupEscape s
  | .updateText cid t, s => updateCommentText cid t s
  | .delete cid, s => deleteComment cid s
  | .clearAll r, s => clearAllComments r s
  | .submit t ok, s => (submitReview t ok s).1
  | .cancel, s => (cancelReview s).1

/-- A whole session run: fold a list of actions over a state. -/
def runTrace (as : List Action) (s : SessionState) : SessionState :=
  as.foldl (fun s a => step a s) s

/-- The id invariant: every stored comment id is `comment-k` for some
`k` below the counter, and no two stored comments share an id. -/
def IdInv (s : SessionState) : Prop :=
  (∀ i ∈ s.comments.map (fun c => c.id),
    ∃ k, k < s.commentIdCounter ∧ i = mkCommentId k) ∧
  (s.comments.map (fun c => c.id)).Nodup

theorem IdInv_initState (lines : List String) : IdInv (initState lines) := by
  constructor
  · intro i hi
    simp [initState] at hi
  · simp [initState]

/-- Appending one fresh comment with the current counter id preserves the
invariant. -/
theorem IdInv_push (s : SessionState) (c : Comment)
    (hc : c.id = mkCommentId s.commentIdCounter) (h : IdInv s) :
    ((s.comments ++ [c]).map (fun c => c.id)).Nodup ∧
    (∀ i ∈ (s.comments ++ [c]).map (fun c => c.id),
      ∃ k, k < s.commentIdCounter + 1 ∧ i = mkCommentId k) := by
  obtain ⟨hbound, hnodup⟩ := h
  constructor
  · rw [List.map_append, List.map_singleton, List.nodup_append]
    refine ⟨hnodup, List.nodup_singleton _, ?_⟩
    intro i hi hmem
    simp only [List.mem_singleton] at hmem
    obtain ⟨k, hk, hik⟩ := hbound i hi
    rw [hmem, hc] at hik
    have := mkCommentId_injective _ _ hik
    omega
  · intro i hi
    rw [List.map_append, List.mem_append] at hi
    rcases hi with hi | hi
    · obtain ⟨k, hk, hik⟩ := hbound i hi
      exact ⟨k, by omega, hik⟩
    · simp only [List.map_singleton, List.mem_singleton] at hi
      exact ⟨s.commentIdCounter, by omega, hi ▸ hc⟩

/-- `setTextOfFirst` does not touch ids. -/
theorem setTextOfFirst_map_id (cid t : String) (l : List Comment) :
    (setTextOfFirst cid t l).map (fun c => c.id) = l.map (fun c => c.id) := by
  induction l with
  | nil => rfl
  | cons c cs ih =>
    unfold setTextOfFirst
    by_cases h : c.id = cid
    · rw [if_pos h]
      rfl
    · rw [if_neg h]
      simp [ih]

/-- A state with the same comments and counter satisfies the invariant and
does not decrease the counter. -/
theorem IdInv_of_same (s t : SessionState) (hcm : t.comments = s.comments)
    (hct : t.commentIdCounter = s.commentIdCounter) (h : IdInv s) :
    IdInv t ∧ s.commentIdCounter ≤ t.commentIdCounter := by
  unfold IdInv
  rw [hcm, hct]
  exact ⟨⟨h.1, h.2⟩, Nat.le_refl _⟩

/-- Single-step preservation of the id invariant, together with
monotonicity of the counter. -/
theorem IdInv_step (a : Action) (s : SessionState) (h : IdInv s) :
    IdInv (step a s) ∧ s.commentIdCounter ≤ (step a s).commentIdCounter := by
  obtain ⟨hbound, hnodup⟩ := h
  cases a with
  | startSel n => exact IdInv_of_same s _ rfl rfl ⟨hbound, hnodup⟩
  | extendSel n =>
    refine IdInv_of_same s _ ?_ ?_ ⟨hbound, hnodup⟩
    · show (extendLineSelection n s).comments = s.comments
      unfold extendLineSelection
      split <;> rfl
    · show (extendLineSelection n s).commentIdCounter = s.commentIdCounter
      unfold extendLineSelection
      split <;> rfl
  | mouseup =>
    refine IdInv_of_same s _ ?_ ?_ ⟨hbound, hnodup⟩
    · show (docMouseup s).comments = s.comments
      unfold docMouseup
      split <;> rfl
    · show (docMouseup s).commentIdCounter = s.commentIdCounter
      unfold docMouseup
      split <;> rfl
  | clearSel => exact IdInv_of_same s _ rfl rfl ⟨hbound, hnodup⟩
  | quickAdd n =>
    have hp := IdInv_push s
      { id := mkCommentId s.commentIdCounter, type := "line",
        startLine := some (min n (jsFalsyOr (some n) n)),
        endLine := some (max n (jsFalsyOr (some n) n)), text := "",
        linePreview := selectionPreview s.lines
          (min n (jsFalsyOr (some n) n)) (max n (jsFalsyOr (some n) n)),
        selectedText := none } rfl ⟨hbound, hnodup⟩
    exact ⟨⟨hp.2, hp.1⟩, Nat.le_succ _⟩
  | addForSel =>
    cases hs : s.selectionStart with
    | none =>
      have hstep : step Action.addForSel s = s := by
        show addCommentForSelection s = s
        unfold addCommentForSelection
        rw [hs]
      rw [hstep]
      exact ⟨⟨hbound, hnodup⟩, Nat.le_refl _⟩
    | some a0 =>
      have hstep : step Action.addForSel s =
          { s with
              comments := s.comments ++
                [{ id := mkCommentId s.commentIdCounter, type := "line",
                   startLine := some (min a0 (jsFalsyOr s.selectionEnd a0)),
                   endLine := some (max a0 (jsFalsyOr s.selectionEnd a0)),
                   text := "",
                   linePreview := selectionPreview s.lines
                     (min a0 (jsFalsyOr s.selectionEnd a0))
                     (max a0 (jsFalsyOr s.selectionEnd a0)),
                   selectedText := none }],
              commentIdCounter := s.commentIdCounter + 1,
              selectionStart := none, selectionEnd := none } := by
        show addCommentForSelection s = _
        unfold addCommentForSelection
        rw [hs]
      rw [hstep]
      have hp := IdInv_push s
        { id := mkCommentId s.commentIdCounter, type := "line",
          startLine := some (min a0 (jsFalsyOr s.selectionEnd a0)),
          endLine := some (max a0 (jsFalsyOr s.selectionEnd a0)), text := "",
          linePreview := selectionPreview s.lines
            (min a0 (jsFalsyOr s.selectionEnd a0))
            (max a0 (jsFalsyOr s.selectionEnd a0)),
          selectedText := none } rfl ⟨hbound, hnodup⟩
      exact ⟨⟨hp.2, hp.1⟩, Nat.le_succ _⟩
  | setSel raw =>
    refine IdInv_of_same s _ ?_ ?_ ⟨hbound, hnodup⟩
    · show (setSelectedText raw s).comments = s.comments
      unfold setSelectedText
      dsimp only
      split <;> rfl
    · show (setSelectedText raw s).commentIdCounter = s.commentIdCounter
      unfold setSelectedText
      dsimp only
      split <;> rfl
  | confirmInline inp =>
    by_cases hsel : s.selectedText = ""
    · have hstep : step (Action.confirmInline inp) s = s := by
        show confirmInlineComment inp s = s
        unfold confirmInlineComment
        rw [if_pos hsel]
      rw [hstep]
      exact ⟨⟨hbound, hnodup⟩, Nat.le_refl _⟩
    · have hstep : step (Action.confirmInline inp) s =
          { s with
              comments := s.comments ++
                [{ id := mkCommentId s.commentIdCounter, type := "text",
                   startLine := none, endLine := none, text := jsTrim inp,
                   linePreview := if 100 < jsLen s.selectedText
                                  then jsSubstrTo s.selectedText 100 ++ "..."
                                  else s.selectedText,
                   selectedText := some s.selectedText }],
              commentIdCounter := s.commentIdCounter + 1,
              selectedText := "" } := by
        show confirmInlineComment inp s = _
        unfold confirmInlineComment
        rw [if_neg hsel]
      rw [hstep]
      have hp := IdInv_push s
        { id := mkCommentId s.commentIdCounter, type := "text",
          startLine := none, endLine := none, text := jsTrim inp,
          linePreview := if 100 < jsLen s.selectedText
                         then jsSubstrTo s.selectedText 100 ++ "..."
                         else s.selectedText,
          selectedText := some s.selectedText } rfl ⟨hbound, hnodup⟩
      exact ⟨⟨hp.2, hp.1⟩, Nat.le_succ _⟩
  | escapePopup => exact IdInv_of_same s _ rfl rfl ⟨hbound, hnodup⟩
  | updateText cid t =>
    have hids : (step (Action.updateText cid t) s).comments.map
        (fun c => c.id) = s.comments.map (fun c => c.id) :=
      setTextOfFirst_map_id cid t s.comments
    refine ⟨⟨?_, ?_⟩, Nat.le_refl _⟩
    · intro i hi
      rw [hids] at hi
      exact hbound i hi
    · rw [hids]
      exact hnodup
  | delete cid =>
    refine ⟨⟨?_, ?_⟩, Nat.le_refl _⟩
    · intro i hi
      apply hbound
      simp only [List.mem_map] at hi ⊢
      obtain ⟨c, hc, hci⟩ := hi
      exact ⟨c, List.mem_of_mem_filter hc, hci⟩
    · exact List.Nodup.sublist
        (List.Sublist.map _ (List.filter_sublist s.comments)) hnodup
  | clearAll r =>
    by_cases hc : s.comments.length > 0 ∧ r
    · have hstep : step (Action.clearAll r) s = { s with comments := [] } := by
        show clearAllComments r s = _
        unfold clearAllComments
        rw [if_pos hc]
      rw [hstep]
      refine ⟨⟨?_, by simp⟩, Nat.le_refl _⟩
      intro i hi
      simp at hi
    · have hstep : step (Action.clearAll r) s = s := by
        show clearAllComments r s = s
        unfold clearAllComments
        rw [if_neg hc]
      rw [hstep]
      exact ⟨⟨hbound, hnodup⟩, Nat.le_refl _⟩
  | submit t ok =>
    cases ok
    · exact IdInv_of_same s _ rfl rfl ⟨hbound, hnodup⟩
    · exact IdInv_of_same s _ rfl rfl ⟨hbound, hnodup⟩
  | cancel => exact IdInv_of_same s _ rfl rfl ⟨hbound, hnodup⟩

theorem IdInv_runTrace (as : List Action) (s : SessionState) (h : IdInv s) :
    IdInv (runTrace as s) := by
  induction as generalizing s with
  | nil => exact h
  | cons a as ih => exact ih (step a s) (IdInv_step a s h).1

/-- C10: comment ids come from a single strictly monotone counter — in any
state reachable by any trace of user actions from a fresh page, every
stored id is `comment-k` for a `k` below the counter, no two stored
comments share an id, and every single operation both preserves this
invariant and never decrements the counter, so an id is never reused after
a delete or clear-all. -/
theorem comment_id_uniqueness (lines : List String) (as : List Action)
    (a : Action) (s : SessionState) (h : IdInv s) :
    IdInv (runTrace as (initState lines)) ∧
    IdInv (step a s) ∧
    s.commentIdCounter ≤ (step a s).commentIdCounter := by
  refine ⟨IdInv_runTrace as _ (IdInv_initState lines), ?_, ?_⟩
  · exact (IdInv_step a s h).1
  · exact (IdInv_step a s h).2

theorem comment_id_uniqueness_witness :
    IdInv (runTrace [Action.quickAdd 0, Action.confirmInline "x"]
      (initState ["ln"])) ∧
    IdInv (step (Action.quickAdd 1) (initState ["ln"])) ∧
    (initState ["ln"]).commentIdCounter ≤
      (step (Action.quickAdd 1) (initState ["ln"])).commentIdCounter := by
  exact comment_id_uniqueness ["ln"] [Action.quickAdd 0, Action.confirmInline "x"]
    (Action.quickAdd 1) (initState ["ln"]) (IdInv_initState ["ln"])

/-! ## Block-mode segmentation (claim C6)

`web_ui.py` contains only the line-mode `parse_markdown`; the block-mode
strategy belongs to a part of the repository that is not in `src/`, so it
is reconstructed here from the specification alone. -/

/-- Whitespace trimming on raw character lists (for `displayText`). -/
def trimChars (l : List Char) : List Char :=
  ((l.dropWhile Char.isWhitespace).reverse.dropWhile Char.isWhitespace).reverse

/-- A line that is empty or whitespace-only. -/
def isBlankLine (l : List Char) : Bool :=
  l.all Char.isWhitespace

/-- Modelled from the spec: a heading line is 1–6 leading `#` characters
followed by whitespace; yields the marker length and the trimmed
remainder. -/
def headingOf (l : List Char) : Option (Nat × List Char) :=
  let n := (l.takeWhile (fun c => c = '#')).length
  if 1 ≤ n ∧ n ≤ 6 then
    match l.drop n with
    | c :: cs => if c.isWhitespace then some (n, trimChars (c :: cs)) else none
    | [] => none
  else none

/-- Modelled from the spec: a bullet marker (`-`/`*` plus whitespace) or an
ordered-list marker (digits, `.`, whitespace); yields the trimmed
remainder. -/
def listItemOf (l : List Char) : Option (List Char) :=
  match l with
  | c :: x :: xs =>
    if (c = '-' ∨ c = '*') ∧ x.isWhitespace then some (trimChars (x :: xs))
    else
      let ds := l.takeWhile Char.isDigit
      if ds.length ≥ 1 then
        match l.drop ds.length with
        | '.' :: y :: ys =>
          if y.isWhitespace then some (trimChars (y :: ys)) else none
        | _ => none
      else none
  | _ => none

/-- The backtick character (code unit 96). -/
def fenceChar : Char :=
  Char.ofNat 96

/-- Modelled from the spec: a code-fence line starts with three backticks;
yields the language tag (the trimmed remainder of the line). -/
def fenceOf (l : List Char) : Option (List Char) :=
  match l with
  | a :: b :: c :: rest =>
    if a = fenceChar ∧ b = fenceChar ∧ c = fenceChar then
      some (trimChars rest)
    else none
  | _ => none

/-- A line that continues a paragraph: non-blank and not matching any of
the heading / list / fence patterns. -/
def isParagraphLine (l : List Char) : Bool :=
  !isBlankLine l && (headingOf l).isNone && (listItemOf l).isNone &&
    (fenceOf l).isNone

/-- The `displayText` of a code Unit: `[Code: <language>]` when a language
tag follows the opening fence, else `[Code block]`. -/
def codeLabel (lang : List Char) : List Char :=
  if lang = [] then "[Code block]".data
  else "[Code: ".data ++ lang ++ "]".data

/-- Modelled from the spec (§4.1 of the design document): the block-mode
segmentation loop over the physical lines.  Pattern checks are tried in
the order heading → list-item → code-fence → paragraph; blank lines are
skipped; a fenced code block consumes to the closing fence or end of
input; consecutive paragraph lines are merged (spaces in `displayText`,
newlines in `raw`).  `fuel` bounds the recursion; every step consumes at
least one line, so `fuel = number of remaining lines` is enough. -/
def segmentLoop (fuel : Nat) (idx : Nat) (ls : List (List Char)) : List Block :=
  match fuel with
  | 0 => []
  | fuel + 1 =>
    match ls with
    | [] => []
    | l :: rest =>
      if isBlankLine l then segmentLoop fuel idx rest
      else
        match headingOf l with
        | some (lvl, txt) =>
          { id := "block-" ++ toString idx, type := "heading", text := txt,
            level := lvl, raw := l } :: segmentLoop fuel (idx + 1) rest
        | none =>
          match listItemOf l with
          | some txt =>
            { id := "block-" ++ toString idx, type := "list-item",
              text := txt, level := 0, raw := l }
              :: segmentLoop fuel (idx + 1) rest
          | none =>
            match fenceOf l with
            | some lang =>
              let body := rest.takeWhile (fun x => (fenceOf x).isNone)
              let after := rest.drop body.length
              let closing := after.take 1
              { id := "block-" ++ toString idx, type := "code",
                text := codeLabel lang, level := 0,
                raw := joinLines ([l] ++ body ++ closing) }
                :: segmentLoop fuel (idx + 1) (after.drop 1)
            | none =>
              let cont := rest.takeWhile isParagraphLine
              { id := "block-" ++ toString idx, type := "paragraph",
                text := List.intercalate [' '] (l :: cont),
                level := 0, raw := joinLines (l :: cont) }
                :: segmentLoop fuel (idx + 1) (rest.drop cont.length)

/-- Modelled from the spec: block-mode `segment(text)`, the second of the
two interchangeable segmentation strategies. -/
def segmentBlocks (content : List Char) : List Block :=
  let ls := splitLines content
  segmentLoop ls.length 0 ls

set_option maxRecDepth 10000 in
/-- C6: on the spec's worked example, block-mode segmentation yields
exactly four Units in order: heading(level 1, "Title"),
paragraph("Some text here."), list-item("item one"),
list-item("item two"). -/
theorem block_mode_example :
    segmentBlocks ("# Title\n\nSome text here.\n\n- item one\n- item two\n".data) =
      [{ id := "block-0", type := "heading", text := "Title".data, level := 1,
         raw := "# Title".data },
       { id := "block-1", type := "paragraph", text := "Some text here.".data,
         level := 0, raw := "Some text here.".data },
       { id := "block-2", type := "list-item", text := "item one".data,
         level := 0, raw := "- item one".data },
       { id := "block-3", type := "list-item", text := "item two".data,
         level := 0, raw := "- item two".data }] := by
  decide

end InteractiveReview
